import Mathlib

/-!
Shallow embedding of the two programs of the repository senmay/GIS-scripts:
`WFS_DOWNLOADER/wfs_downloader.py` (the download orchestrator) and
`check_downloads.py` (the verifier).  Python strings are modelled as
`List Char`, the filesystem as an explicit state value threaded through the
functions, and the network as an input (`FetchResult`) handed to each
download.  Definitions follow the Python source line by line; the source
line numbers are cited in the doc comments.
-/

/-- Python strings, modelled as lists of characters. -/
abbrev PyStr := List Char

/-- Whitespace characters removed by Python `str.strip()` (the ASCII ones:
space, tab, newline, carriage return, vertical tab, form feed). -/
def isPySpace (c : Char) : Bool :=
  c = ' ' || c = '\t' || c = '\n' || c = '\r' || c = '\x0b' || c = '\x0c'

/-- Python `str.strip()`: drop leading and trailing whitespace. -/
def pyStrip (s : PyStr) : PyStr :=
  ((s.dropWhile isPySpace).reverse.dropWhile isPySpace).reverse

/-- Python substring test `pat in s`. -/
def containsSubstr (pat s : PyStr) : Bool :=
  s.tails.any (fun t => pat.isPrefixOf t)

/-- Python `os.path.join a b` on POSIX: if `b` is absolute it wins; an empty
or slash-terminated `a` is concatenated directly; otherwise a separator is
inserted (so `join a "" = a ++ "/"`). -/
def ospath_join (a b : PyStr) : PyStr :=
  if b.head? = some '/' then b
  else if a = [] then b
  else if a.getLast? = some '/' then a ++ b
  else a ++ '/' :: b

/-- The filesystem state: a list of existing directories and an association
list from file paths to file contents.  `writeFile` prepends and `readFile?`
takes the first match, so a later write to the same path shadows (that is,
overwrites) an earlier one. -/
structure FS where
  dirs : List PyStr
  files : List (PyStr × PyStr)
deriving DecidableEq

/-- Python `os.path.isdir`. -/
def FS.isDir (fs : FS) (p : PyStr) : Bool :=
  fs.dirs.any (fun d => d = p)

/-- Does a file (not directory) exist at `p`? -/
def FS.isFile (fs : FS) (p : PyStr) : Bool :=
  fs.files.any (fun e => e.1 = p)

/-- Python `os.path.exists`: true for files and directories alike. -/
def FS.pathExists (fs : FS) (p : PyStr) : Bool :=
  fs.isFile p || fs.isDir p

/-- Content of the file at `p`, if any (first, i.e. most recent, write wins). -/
def FS.readFile? (fs : FS) (p : PyStr) : Option PyStr :=
  (fs.files.find? (fun e => e.1 = p)).map (fun e => e.2)

/-- Python `open(p, "wb")` followed by `f.write c`: the new entry shadows any
older entry for the same path. -/
def FS.writeFile (fs : FS) (p c : PyStr) : FS :=
  { fs with files := (p, c) :: fs.files }

/-- Python `os.makedirs(p, exist_ok=True)`: record the directory as existing. -/
def FS.makedirs (fs : FS) (p : PyStr) : FS :=
  { fs with dirs := p :: fs.dirs }

namespace WfsDownloader

/-- Configuration constant `LAYERS` (wfs_downloader.py line 8). -/
def LAYERS : List PyStr := ["ms:budynki".toList, "ms:dzialki".toList]

/-- Configuration constant `OUTPUT_DIR` (wfs_downloader.py line 9). -/
def OUTPUT_DIR : PyStr := "wfs_data".toList

/-- Configuration constant `MAX_WORKERS` (wfs_downloader.py line 12). -/
def MAX_WORKERS : Nat := 10

/-- Result of the `requests.get` call inside `download_wfs_data`: a 2xx
response body, a `requests.exceptions.Timeout`, a
`requests.exceptions.RequestException` carrying an optional response body
(`e.response` may be `None` for transport failures, or hold the body text of
a non-2xx response raised by `raise_for_status`), or any other exception. -/
inductive FetchResult where
  | ok (body : PyStr)
  | timedOut
  | requestError (respBody : Option PyStr)
  | otherError
deriving DecidableEq

/-- Classified outcome of one download task, matching the five `print`
branches of `download_wfs_data` (lines 41, 45, 49, 51, 54). -/
inductive Outcome where
  | success (path : PyStr)
  | timedOut
  | layerNotDefined
  | httpError
  | unexpectedError
deriving DecidableEq

/-- Label of the log line each outcome produces (lines 41, 45, 49, 51, 54);
`layerNotDefined` prints at `INFO`, not `ERROR`, level. -/
def logLabel : Outcome → PyStr
  | .success _ => "SUCCESS".toList
  | .timedOut => "TIMEOUT".toList
  | .layerNotDefined => "INFO".toList
  | .httpError => "ERROR".toList
  | .unexpectedError => "UNEXPECTED ERROR".toList

/-- `download_wfs_data` (lines 15-55).  The network call is the `fetch`
input; the function returns the Python return value (`True`/`False`), the
filesystem after the call, and the classified outcome.  On success it runs
`os.makedirs(output_dir, exist_ok=True)`, replaces `":"` by `"_"` in the
layer name, and writes the response body to
`os.path.join(output_dir, sanitized_layer_name + ".gml")` (lines 33-39).
On `Timeout` it returns `False` (lines 44-46); on a `RequestException` whose
response body contains `"LayerNotDefined"` it logs at INFO level and returns
`False`, otherwise it logs at ERROR level and returns `False` (lines 47-52);
on any other exception it returns `False` (lines 53-55).  No failure branch
touches the filesystem. -/
def download_wfs_data (fetch : FetchResult) (layer_name output_dir : PyStr)
    (fs : FS) : Bool × FS × Outcome :=
  match fetch with
  | .ok body =>
      let fs1 := fs.makedirs output_dir
      let sanitized_layer_name := layer_name.map (fun c => if c = ':' then '_' else c)
      let output_filename := ospath_join output_dir (sanitized_layer_name ++ ".gml".toList)
      (true, fs1.writeFile output_filename body, .success output_filename)
  | .timedOut => (false, fs, .timedOut)
  | .requestError respBody =>
      match respBody with
      | some body =>
          if containsSubstr "LayerNotDefined".toList body then
            (false, fs, .layerNotDefined)
          else
            (false, fs, .httpError)
      | none => (false, fs, .httpError)
  | .otherError => (false, fs, .unexpectedError)

/-- `sanitize_filename` (lines 57-61): `re.sub(r'[\\/*?:"<>|]', "", name)`
removes every occurrence of the nine listed characters, then `.strip()`
trims surrounding whitespace. -/
def isIllegalChar (c : Char) : Bool :=
  c = '\\' || c = '/' || c = '*' || c = '?' || c = ':' || c = '"' ||
    c = '<' || c = '>' || c = '|'

/-- `sanitize_filename` of wfs_downloader.py (lines 57-61). -/
def sanitize_filename (name : PyStr) : PyStr :=
  pyStrip (name.filter (fun c => !isIllegalChar c))

/-- The `for layer in LAYERS` loop body of `process_wfs_service`
(lines 76-77): download each layer in order into `area_specific_dir`,
threading the filesystem and recording each layer's outcome. -/
def downloadLayers (wfs_url area_specific_dir : PyStr)
    (fetch : PyStr → PyStr → FetchResult) :
    List PyStr → FS → FS × List (PyStr × Outcome)
  | [], fs => (fs, [])
  | layer :: rest, fs =>
      let r := download_wfs_data (fetch wfs_url layer) layer area_specific_dir fs
      let next := downloadLayers wfs_url area_specific_dir fetch rest r.2.1
      (next.1, (layer, r.2.2) :: next.2)

/-- `process_wfs_service` (lines 63-77): skip when either argument is empty
(lines 67-69), otherwise build `area_specific_dir =
os.path.join(OUTPUT_DIR, sanitize_filename(organ_name))` (lines 73-74) and
download every layer of `LAYERS` into it (lines 76-77).  Returns the
filesystem and the per-layer outcome trace (empty when skipped). -/
def process_wfs_service (organ_name wfs_url : PyStr)
    (fetch : PyStr → PyStr → FetchResult) (fs : FS) :
    FS × List (PyStr × Outcome) :=
  if wfs_url = [] ∨ organ_name = [] then (fs, [])
  else
    let sanitized_organ_name := sanitize_filename organ_name
    let area_specific_dir := ospath_join OUTPUT_DIR sanitized_organ_name
    downloadLayers wfs_url area_specific_dir fetch LAYERS fs

/-- One CSV data row, reduced to the two fields the program reads:
the `Organ zgłaszający` column and the `Usługa pobierania` column. -/
structure Row where
  organ : PyStr
  url : PyStr
deriving DecidableEq

/-- One submitted task: the `(organ_name, wfs_url)` argument pair of a
`executor.submit(process_wfs_service, organ_name, wfs_url)` call. -/
structure ServiceEntry where
  organ : PyStr
  url : PyStr
deriving DecidableEq

/-- The `futures` list built by the row loop of `process_csv_parallel`
(lines 99-105): strip both fields of each row and submit one task per row
whose stripped fields are both non-empty; other rows are skipped and the
loop continues. -/
def futures (rows : List Row) : List ServiceEntry :=
  rows.filterMap (fun row =>
    let wfs_url := pyStrip row.url
    let organ_name := pyStrip row.organ
    if wfs_url ≠ [] ∧ organ_name ≠ [] then some ⟨organ_name, wfs_url⟩ else none)

/-- Sequential linearization of the batch: run each submitted task in turn,
threading the filesystem, and record for every task the `(entry, layer,
outcome)` of each download it performs.  (Which downloads happen, and how
often, is interleaving-independent; this fixes one order.) -/
def runBatch (fetch : PyStr → PyStr → FetchResult) :
    List ServiceEntry → FS → FS × List (ServiceEntry × PyStr × Outcome)
  | [], fs => (fs, [])
  | e :: rest, fs =>
      let r := process_wfs_service e.organ e.url fetch fs
      let next := runBatch fetch rest r.1
      (next.1, r.2.map (fun x => (e, x.1, x.2)) ++ next.2) 

/-- Modelled from the spec: the scheduling state of the
`concurrent.futures.ThreadPoolExecutor` worker pool (library code, not part
of this repository): tasks not yet started, tasks currently running, and
tasks finished. -/
structure PoolState (α : Type) where
  pending : List α
  active : List α
  done : List α

/-- Modelled from the spec: one scheduling step of a pool of width `W` —
"run-at-most-`max_workers` tasks concurrently".  A pending task may start
only while fewer than `W` tasks are active; a running task may finish. -/
inductive PoolStep (W : Nat) {α : Type} : PoolState α → PoolState α → Prop
  | start (t : α) (rest a d : List α) :
      a.length < W →
      PoolStep W ⟨t :: rest, a, d⟩ ⟨rest, t :: a, d⟩
  | finish (t : α) (p a1 a2 d : List α) :
      PoolStep W ⟨p, a1 ++ t :: a2, d⟩ ⟨p, a1 ++ a2, t :: d⟩

/-- The multiset of tasks held by a pool state, in whatever stage. -/
def PoolState.bag {α : Type} (s : PoolState α) : Multiset α :=
  ↑(s.pending ++ s.active ++ s.done)

end WfsDownloader

namespace CheckDownloads

/-- Configuration constant `BASE_DIR` (check_downloads.py line 7). -/
def BASE_DIR : PyStr := "wfs_data".toList

/-- Configuration constant `EXPECTED_FILES` (check_downloads.py line 8). -/
def EXPECTED_FILES : List PyStr := ["ms_budynki.gml".toList, "ms_dzialki.gml".toList]

/-- `sanitize_filename` of check_downloads.py (lines 10-15); the source is
character for character the one of wfs_downloader.py lines 57-61. -/
def sanitize_filename (name : PyStr) : PyStr :=
  pyStrip (name.filter (fun c => !WfsDownloader.isIllegalChar c))

/-- The `expected_organs` set (check_downloads.py line 36): the distinct
stripped non-empty values of the organization column.  (The source then
iterates over `sorted(expected_organs)`; the order is irrelevant to the
report's contents, so the model keeps first-occurrence order.) -/
def expected_organs (organColumn : List PyStr) : List PyStr :=
  ((organColumn.map pyStrip).filter (fun o => !o.isEmpty)).dedup

/-- The per-organization check loop of `check_downloads` (lines 38-51): for
each organization, if `<BASE_DIR>/<sanitized>` is not a directory append it
to `missing_directories` (lines 42-43); otherwise collect the expected files
absent from that directory (lines 45-48) and, when any are missing, record
them keyed by the organization (lines 50-51).  The two append-only loop
accumulators are rendered as a `filter` and a `filterMap`. -/
def check_downloads (organs : List PyStr) (fs : FS) :
    List PyStr × List (PyStr × List PyStr) :=
  let missing_directories := organs.filter (fun organ_name =>
    !(fs.isDir (ospath_join BASE_DIR (sanitize_filename organ_name))))
  let missing_files_report := organs.filterMap (fun organ_name =>
    let organ_dir := ospath_join BASE_DIR (sanitize_filename organ_name)
    if fs.isDir organ_dir then
      let missing_files := EXPECTED_FILES.filter (fun file =>
        !(fs.pathExists (ospath_join organ_dir file)))
      if missing_files.isEmpty then none else some (organ_name, missing_files)
    else none)
  (missing_directories, missing_files_report)

end CheckDownloads

section Helpers

open WfsDownloader

/-- Reading back the path just written yields exactly the written content,
regardless of what the filesystem held there before. -/
theorem FS.readFile?_writeFile (fs : FS) (p c : PyStr) :
    (fs.writeFile p c).readFile? p = some c := by
  simp [FS.readFile?, FS.writeFile, List.find?]

/-- `pyStrip` is `dropWhile` on the left followed by `rdropWhile` on the
right. -/
theorem pyStrip_eq_rdropWhile (s : PyStr) :
    pyStrip s = (s.dropWhile isPySpace).rdropWhile isPySpace := rfl

/-- Every character of `pyStrip s` is a character of `s`. -/
theorem mem_of_mem_pyStrip {c : Char} {s : PyStr} (h : c ∈ pyStrip s) : c ∈ s := by
  rw [pyStrip_eq_rdropWhile] at h
  have h1 : c ∈ s.dropWhile isPySpace :=
    (List.rdropWhile_prefix isPySpace (s.dropWhile isPySpace)).sublist.subset h
  exact (List.dropWhile_suffix isPySpace).sublist.subset h1

/-- The last character surviving `rdropWhile p` does not satisfy `p`. -/
theorem rdropWhile_getLast?_not (p : Char → Bool) (l : List Char) (c : Char)
    (h : (l.rdropWhile p).getLast? = some c) : p c = false := by
  have hne : l.rdropWhile p ≠ [] := by
    intro hnil
    rw [hnil] at h
    simp at h
  have hlast := List.rdropWhile_last_not p l hne
  rw [List.getLast?_eq_getLast _ hne] at h
  have hc : (l.rdropWhile p).getLast hne = c := Option.some.inj h
  rw [hc] at hlast
  exact Bool.not_eq_true _ ▸ eq_false_of_ne_true hlast

/-- The first character surviving `dropWhile p` does not satisfy `p`. -/
theorem dropWhile_head?_not (p : Char → Bool) (l : List Char) (c : Char)
    (h : (l.dropWhile p).head? = some c) : p c = false := by
  induction l with
  | nil => simp [List.dropWhile] at h
  | cons a t ih =>
      cases hp : p a with
      | true =>
          rw [List.dropWhile_cons_of_pos hp] at h
          exact ih h
      | false =>
          rw [List.dropWhile_cons_of_neg (by simp [hp])] at h
          simp at h
          rw [← h]
          exact hp

/-- The first character of a stripped string is not whitespace. -/
theorem pyStrip_head?_not_space {s : PyStr} {c : Char}
    (h : (pyStrip s).head? = some c) : isPySpace c = false := by
  rw [pyStrip_eq_rdropWhile] at h
  obtain ⟨u, hu⟩ := List.rdropWhile_prefix isPySpace (s.dropWhile isPySpace)
  apply dropWhile_head?_not isPySpace s c
  rw [← hu]
  cases hx : (s.dropWhile isPySpace).rdropWhile isPySpace with
  | nil =>
      rw [hx] at h
      simp at h
  | cons a l =>
      rw [hx] at h
      simpa using h

/-- The last character of a stripped string is not whitespace. -/
theorem pyStrip_getLast?_not_space {s : PyStr} {c : Char}
    (h : (pyStrip s).getLast? = some c) : isPySpace c = false := by
  rw [pyStrip_eq_rdropWhile] at h
  exact rdropWhile_getLast?_not isPySpace _ c h

/-- Stripping an already stripped string changes nothing. -/
theorem pyStrip_idem (s : PyStr) : pyStrip (pyStrip s) = pyStrip s := by
  have hdw : (pyStrip s).dropWhile isPySpace = pyStrip s := by
    cases hx : pyStrip s with
    | nil => simp
    | cons a l =>
        have ha : isPySpace a = false := pyStrip_head?_not_space (s := s) (by rw [hx]; rfl)
        rw [List.dropWhile_cons_of_neg (by simp [ha])]
  calc pyStrip (pyStrip s)
      = ((pyStrip s).dropWhile isPySpace).rdropWhile isPySpace := pyStrip_eq_rdropWhile _
    _ = (pyStrip s).rdropWhile isPySpace := by rw [hdw]
    _ = ((s.dropWhile isPySpace).rdropWhile isPySpace).rdropWhile isPySpace := by
          rw [pyStrip_eq_rdropWhile]
    _ = (s.dropWhile isPySpace).rdropWhile isPySpace := List.rdropWhile_idempotent _ _
    _ = pyStrip s := (pyStrip_eq_rdropWhile s).symm

end Helpers

open WfsDownloader in
/-- C1: a successful layer fetch writes the file
`<output_dir>/<sanitized organization>/<sanitized layer>.gml` (the layer
sanitized by replacing `":"` with `"_"`), the file holds exactly the HTTP
response body, any previous file at that path is overwritten (the write wins
over any earlier content in `fs`), and for organization `"Gmina Test"` and
layer `"ms:budynki"` the path is `wfs_data/Gmina Test/ms_budynki.gml`. -/
theorem C1_success_writes_response (organ_name layer_name body : PyStr) (fs : FS) :
    (download_wfs_data (.ok body) layer_name
        (ospath_join OUTPUT_DIR (sanitize_filename organ_name)) fs).1 = true ∧
    (download_wfs_data (.ok body) layer_name
        (ospath_join OUTPUT_DIR (sanitize_filename organ_name)) fs).2.1.readFile?
      (ospath_join (ospath_join OUTPUT_DIR (sanitize_filename organ_name))
        ((layer_name.map (fun c => if c = ':' then '_' else c)) ++ ".gml".toList)) =
      some body ∧
    ospath_join (ospath_join OUTPUT_DIR (sanitize_filename "Gmina Test".toList))
        (("ms:budynki".toList.map (fun c => if c = ':' then '_' else c)) ++ ".gml".toList) =
      "wfs_data/Gmina Test/ms_budynki.gml".toList := by
  refine ⟨rfl, ?_, by decide⟩
  exact FS.readFile?_writeFile _ _ _

open WfsDownloader in
/-- C3: every failing download task (timeout, request exception with or
without a response, or any other exception) returns `False` and leaves the
filesystem exactly as it was: no file, partial or otherwise, is written. -/
theorem C3_failure_returns_false_no_write (fetch : FetchResult)
    (layer_name output_dir : PyStr) (fs : FS)
    (h : ∀ body, fetch ≠ FetchResult.ok body) :
    (download_wfs_data fetch layer_name output_dir fs).1 = false ∧
    (download_wfs_data fetch layer_name output_dir fs).2.1 = fs := by
  cases fetch with
  | ok body => exact absurd rfl (h body)
  | timedOut => exact ⟨rfl, rfl⟩
  | requestError respBody =>
      cases respBody with
      | none => exact ⟨rfl, rfl⟩
      | some b =>
          refine ⟨?_, ?_⟩ <;> (simp only [download_wfs_data]; split <;> rfl)
  | otherError => exact ⟨rfl, rfl⟩

open WfsDownloader in
/-- Witness for C3 at the concrete input: a timeout on layer `ms:budynki`
against the empty filesystem. -/
theorem C3_failure_returns_false_no_write_witness :
    (download_wfs_data .timedOut "ms:budynki".toList "wfs_data".toList ⟨[], []⟩).1 = false ∧
    (download_wfs_data .timedOut "ms:budynki".toList "wfs_data".toList ⟨[], []⟩).2.1 = ⟨[], []⟩ :=
  C3_failure_returns_false_no_write .timedOut "ms:budynki".toList "wfs_data".toList ⟨[], []⟩
    (fun _ hx => FetchResult.noConfusion hx)

open WfsDownloader in
/-- C4: failure classification — a timeout is `timedOut`; a request error
whose response body contains `"LayerNotDefined"` is `layerNotDefined`
(printed at INFO, not ERROR, level) and writes nothing; any other request
error (a response without the marker, or no response at all) is `httpError`;
any remaining exception is `unexpectedError`. -/
theorem C4_failure_classification (layer_name output_dir body : PyStr) (fs : FS) :
    (download_wfs_data .timedOut layer_name output_dir fs).2.2 = .timedOut ∧
    (containsSubstr "LayerNotDefined".toList body = true →
      (download_wfs_data (.requestError (some body)) layer_name output_dir fs).2.2 =
        .layerNotDefined ∧
      (download_wfs_data (.requestError (some body)) layer_name output_dir fs).2.1 = fs ∧
      logLabel .layerNotDefined = "INFO".toList ∧
      logLabel .layerNotDefined ≠ logLabel .httpError) ∧
    (containsSubstr "LayerNotDefined".toList body = false →
      (download_wfs_data (.requestError (some body)) layer_name output_dir fs).2.2 =
        .httpError) ∧
    (download_wfs_data (.requestError none) layer_name output_dir fs).2.2 = .httpError ∧
    (download_wfs_data .otherError layer_name output_dir fs).2.2 = .unexpectedError := by
  refine ⟨rfl, ?_, ?_, rfl, rfl⟩
  · intro hc
    simp only [download_wfs_data, hc]
    refine ⟨rfl, rfl, rfl, by decide⟩
  · intro hc
    simp only [download_wfs_data, hc]
    rfl

open WfsDownloader in
/-- Witness for C4 at the concrete input: a request error whose body reads
`"x LayerNotDefined y"` is classified as `layerNotDefined`. -/
theorem C4_failure_classification_witness :
    (download_wfs_data (.requestError (some "x LayerNotDefined y".toList))
      "ms:budynki".toList "wfs_data".toList ⟨[], []⟩).2.2 = .layerNotDefined :=
  ((C4_failure_classification "ms:budynki".toList "wfs_data".toList
    "x LayerNotDefined y".toList ⟨[], []⟩).2.1 (by decide)).1

/-- C5: the sanitization function of the Orchestrator
(wfs_downloader.py lines 57-61) and the one of the Verifier
(check_downloads.py lines 10-15) agree on every input string. -/
theorem C5_sanitizers_identical (s : PyStr) :
    WfsDownloader.sanitize_filename s = CheckDownloads.sanitize_filename s := rfl

open WfsDownloader in
/-- C6: for every string, the sanitized form contains none of the nine
illegal characters `\ / * ? : " < > |`, starts and ends with
non-whitespace (no leading or trailing whitespace survives), and
sanitizing is idempotent. -/
theorem C6_sanitize_properties (s : PyStr) :
    (∀ c ∈ sanitize_filename s, isIllegalChar c = false) ∧
    (∀ c, (sanitize_filename s).head? = some c → isPySpace c = false) ∧
    (∀ c, (sanitize_filename s).getLast? = some c → isPySpace c = false) ∧
    sanitize_filename (sanitize_filename s) = sanitize_filename s := by
  refine ⟨?_, ?_, ?_, ?_⟩
  · intro c hc
    have h1 : c ∈ s.filter (fun c => !isIllegalChar c) := mem_of_mem_pyStrip hc
    have h2 := (List.mem_filter.mp h1).2
    simpa using h2
  · intro c hc
    exact pyStrip_head?_not_space hc
  · intro c hc
    exact pyStrip_getLast?_not_space hc
  · show pyStrip (List.filter _ (pyStrip (List.filter _ s))) = _
    rw [List.filter_eq_self.mpr ?_]
    · exact pyStrip_idem _
    · intro a ha
      exact (List.mem_filter.mp (mem_of_mem_pyStrip ha)).2

open WfsDownloader in
/-- Witness for C6 at the concrete input `" Gmina: Test "`, whose sanitized
form `"Gmina Test"` contains the character `G`. -/
theorem C6_sanitize_properties_witness : isIllegalChar 'G' = false :=
  (C6_sanitize_properties " Gmina: Test ".toList).1 'G' (by decide)

open WfsDownloader in
/-- C7: a row whose two stripped fields are both non-empty contributes
exactly one submitted task (made of the stripped fields); a row with either
field empty after stripping contributes none, and in both cases the
remaining rows are still processed (the row is skipped, not an error). -/
theorem C7_row_filtering (organ url : PyStr) (rest : List Row) :
    (pyStrip url ≠ [] → pyStrip organ ≠ [] →
      futures (⟨organ, url⟩ :: rest) =
        ⟨pyStrip organ, pyStrip url⟩ :: futures rest) ∧
    (pyStrip url = [] ∨ pyStrip organ = [] →
      futures (⟨organ, url⟩ :: rest) = futures rest) := by
  constructor
  · intro hu ho
    simp only [futures, List.filterMap_cons]
    rw [if_pos ⟨hu, ho⟩]
  · intro h
    simp only [futures, List.filterMap_cons]
    rw [if_neg]
    intro hx
    rcases h with h | h
    · exact hx.1 h
    · exact hx.2 h

open WfsDownloader in
/-- Witness for C7 at concrete rows: a valid row followed by a row with a
blank organization yields exactly one task. -/
theorem C7_row_filtering_witness :
    futures [⟨" Gmina A ".toList, " http://a ".toList⟩] =
      [⟨"Gmina A".toList, "http://a".toList⟩] := by
  have h := (C7_row_filtering " Gmina A ".toList " http://a ".toList []).1
    (by decide) (by decide)
  exact h

open WfsDownloader in
/-- C9: the organization name `":"` is non-empty yet made only of illegal
characters, so it sanitizes to the empty string; `process_wfs_service` does
not skip it — both layers are downloaded — and, because
`os.path.join(OUTPUT_DIR, "")` collapses to the output directory itself,
each layer file ends up directly under `OUTPUT_DIR`
(`wfs_data/ms_budynki.gml` and `wfs_data/ms_dzialki.gml`). -/
theorem C9_all_illegal_org_name (url body : PyStr) (hurl : url ≠ []) :
    (":".toList ≠ [] ∧ (∀ c ∈ ":".toList, isIllegalChar c = true) ∧
      sanitize_filename ":".toList = []) ∧
    (process_wfs_service ":".toList url (fun _ _ => .ok body) ⟨[], []⟩).2.map Prod.fst =
      LAYERS ∧
    (process_wfs_service ":".toList url (fun _ _ => .ok body) ⟨[], []⟩).1.readFile?
      (ospath_join OUTPUT_DIR "ms_budynki.gml".toList) = some body ∧
    (process_wfs_service ":".toList url (fun _ _ => .ok body) ⟨[], []⟩).1.readFile?
      (ospath_join OUTPUT_DIR "ms_dzialki.gml".toList) = some body := by
  have hguard : ¬(url = [] ∨ ":".toList = []) := by
    rintro (h | h)
    · exact hurl h
    · exact absurd h (by decide)
  refine ⟨⟨by decide, by decide, by decide⟩, ?_, ?_, ?_⟩ <;>
    · simp only [process_wfs_service]
      rw [if_neg hguard]
      rfl

open WfsDownloader in
/-- Witness for C9 at the concrete input `url = "u"`, `body = "B"`. -/
theorem C9_all_illegal_org_name_witness :
    WfsDownloader.sanitize_filename ":".toList = [] :=
  (C9_all_illegal_org_name "u".toList "B".toList (by decide)).1.2.2

open WfsDownloader in
/-- C10: two valid rows with the same organization are both submitted (no
deduplication); for every layer both resulting tasks report success on the
same output path (the path depends only on the organization and the layer);
and a second write to a path supersedes the first, so the later download
overwrites the earlier one. -/
theorem C10_duplicate_rows (organ u1 u2 : PyStr)
    (h1 : pyStrip u1 ≠ []) (h2 : pyStrip u2 ≠ []) (ho : pyStrip organ ≠ []) :
    futures [⟨organ, u1⟩, ⟨organ, u2⟩] =
      [⟨pyStrip organ, pyStrip u1⟩, ⟨pyStrip organ, pyStrip u2⟩] ∧
    (∀ layer body1 body2 (fs1 fs2 : FS), ∃ path,
      (download_wfs_data (.ok body1) layer
        (ospath_join OUTPUT_DIR (sanitize_filename (pyStrip organ))) fs1).2.2 =
        .success path ∧
      (download_wfs_data (.ok body2) layer
        (ospath_join OUTPUT_DIR (sanitize_filename (pyStrip organ))) fs2).2.2 =
        .success path) ∧
    (∀ (fs : FS) path body1 body2,
      ((fs.writeFile path body1).writeFile path body2).readFile? path = some body2) := by
  refine ⟨?_, ?_, ?_⟩
  · simp only [futures, List.filterMap_cons, List.filterMap_nil]
    rw [if_pos ⟨h1, ho⟩, if_pos ⟨h2, ho⟩]
  · intro layer body1 body2 fs1 fs2
    exact ⟨_, rfl, rfl⟩
  · intro fs path body1 body2
    exact FS.readFile?_writeFile _ _ _

open WfsDownloader in
/-- Witness for C10 at concrete rows sharing organization `"A"`. -/
theorem C10_duplicate_rows_witness :
    futures [⟨"A".toList, "u".toList⟩, ⟨"A".toList, "v".toList⟩] =
      [⟨"A".toList, "u".toList⟩, ⟨"A".toList, "v".toList⟩] :=
  (C10_duplicate_rows "A".toList "u".toList "v".toList
    (by decide) (by decide) (by decide)).1

open CheckDownloads in
/-- C8: for every organization of the CSV organization column — if
`<BASE_DIR>/<sanitized organization>` is not a directory, the Verifier lists
the organization under missing directories and reports no missing files for
it; if the directory exists, the organization is not under missing
directories and it carries a missing-files entry exactly when some expected
file is absent, the entry being precisely the absent expected filenames. -/
theorem C8_verifier_report (organColumn : List PyStr) (fs : FS) (organ : PyStr)
    (hmem : organ ∈ expected_organs organColumn) :
    (fs.isDir (ospath_join BASE_DIR (sanitize_filename organ)) = false →
      organ ∈ (check_downloads (expected_organs organColumn) fs).1 ∧
      ∀ m, (organ, m) ∉ (check_downloads (expected_organs organColumn) fs).2) ∧
    (fs.isDir (ospath_join BASE_DIR (sanitize_filename organ)) = true →
      organ ∉ (check_downloads (expected_organs organColumn) fs).1 ∧
      ∀ m, ((organ, m) ∈ (check_downloads (expected_organs organColumn) fs).2 ↔
        (m = EXPECTED_FILES.filter (fun file =>
            !(fs.pathExists (ospath_join (ospath_join BASE_DIR (sanitize_filename organ)) file))) ∧
          m ≠ []))) := by
  revert hmem
  generalize expected_organs organColumn = os
  intro hmem
  simp only [check_downloads]
  constructor
  · intro hdir
    constructor
    · exact List.mem_filter.mpr ⟨hmem, by simp [hdir]⟩
    · intro m hin
      rw [List.mem_filterMap] at hin
      obtain ⟨o, ho, hfo⟩ := hin
      split at hfo
      · split at hfo
        · exact Option.noConfusion hfo
        · have hkey := (Prod.mk.injEq _ _ _ _).mp (Option.some.inj hfo)
          rename_i hdo _
          rw [hkey.1] at hdo
          rw [hdo] at hdir
          exact Bool.noConfusion hdir
      · exact Option.noConfusion hfo
  · intro hdir
    constructor
    · intro hin
      have hp := (List.mem_filter.mp hin).2
      rw [hdir] at hp
      simp at hp
    · intro m
      constructor
      · intro hin
        rw [List.mem_filterMap] at hin
        obtain ⟨o, ho, hfo⟩ := hin
        split at hfo
        · split at hfo
          · exact Option.noConfusion hfo
          · have hkey := (Prod.mk.injEq _ _ _ _).mp (Option.some.inj hfo)
            rename_i hemp
            obtain ⟨hk1, hk2⟩ := hkey
            subst hk1
            refine ⟨hk2.symm, ?_⟩
            intro hmnil
            rw [hk2, hmnil] at hemp
            simp at hemp
        · exact Option.noConfusion hfo
      · intro ⟨hm, hne⟩
        rw [List.mem_filterMap]
        refine ⟨organ, hmem, ?_⟩
        rw [if_pos hdir, if_neg ?_]
        · rw [← hm]
        · rw [← hm]
          simpa using hne

open CheckDownloads in
/-- Witness for C8 at a concrete input: with an empty filesystem, the
organization `"Gmina A"` of a one-row CSV is reported as a missing
directory. -/
theorem C8_verifier_report_witness :
    "Gmina A".toList ∈
      (check_downloads (expected_organs ["Gmina A".toList]) ⟨[], []⟩).1 :=
  ((C8_verifier_report ["Gmina A".toList] ⟨[], []⟩ "Gmina A".toList
    (by decide)).1 (by decide)).1

namespace WfsDownloader

/-- Every run of the layer loop produces one download per layer, in order. -/
theorem downloadLayers_fst (wfs_url dir : PyStr) (fetch : PyStr → PyStr → FetchResult)
    (layers : List PyStr) :
    ∀ fs, ((downloadLayers wfs_url dir fetch layers fs).2).map Prod.fst = layers := by
  induction layers with
  | nil => intro fs; rfl
  | cons l rest ih =>
      intro fs
      simp only [downloadLayers, List.map_cons]
      rw [ih]

/-- A non-skipped task downloads exactly the configured layers, in order. -/
theorem process_wfs_service_fst (organ_name wfs_url : PyStr)
    (fetch : PyStr → PyStr → FetchResult) (fs : FS)
    (ho : organ_name ≠ []) (hu : wfs_url ≠ []) :
    ((process_wfs_service organ_name wfs_url fetch fs).2).map Prod.fst = LAYERS := by
  have hguard : ¬(wfs_url = [] ∨ organ_name = []) := by
    rintro (h | h)
    · exact hu h
    · exact ho h
  simp only [process_wfs_service]
  rw [if_neg hguard]
  exact downloadLayers_fst _ _ _ _ _

/-- The download trace of a whole batch of valid entries is exactly the
cross-product of the entries with the configured layers. -/
theorem runBatch_trace (fetch : PyStr → PyStr → FetchResult) (entries : List ServiceEntry)
    (hval : ∀ e ∈ entries, e.organ ≠ [] ∧ e.url ≠ []) :
    ∀ fs, ((runBatch fetch entries fs).2).map (fun x => (x.1, x.2.1)) =
      entries.flatMap (fun e => LAYERS.map (fun l => (e, l))) := by
  induction entries with
  | nil => intro fs; rfl
  | cons e rest ih =>
      intro fs
      simp only [runBatch, List.map_append, List.flatMap_cons]
      congr 1
      · rw [List.map_map]
        have h2 := process_wfs_service_fst e.organ e.url fetch fs
          (hval e (by simp)).1 (hval e (by simp)).2
        rw [← h2, List.map_map]
        rfl
      · exact ih (fun x hx => hval x (by simp [hx])) _

/-- Multiplicity of one pair inside the layer block of a single entry. -/
theorem count_map_pair (a e : ServiceEntry) (l : PyStr) (ls : List PyStr) :
    ((ls.map (fun b => ((a, b) : ServiceEntry × PyStr))).count (e, l)) =
      if e = a then ls.count l else 0 := by
  induction ls with
  | nil => simp
  | cons b bs ih =>
      rw [List.map_cons, List.count_cons, ih, List.count_cons]
      by_cases hea : e = a
      · subst hea
        by_cases hlb : l = b
        · subst hlb
          simp
        · simp [hlb, Prod.ext_iff]
      · have h1 : ¬(a = e ∧ b = l) := fun h => hea h.1.symm
        simp [Prod.ext_iff, hea, h1]

/-- Multiplicity of a pair in the entries × layers cross-product: the
multiplicities multiply, hence each pair appears exactly once when the
entries are distinct. -/
theorem count_cross (entries : List ServiceEntry) (e : ServiceEntry) (l : PyStr) :
    (entries.flatMap (fun a => LAYERS.map (fun b => (a, b)))).count (e, l) =
      entries.count e * LAYERS.count l := by
  induction entries with
  | nil => simp
  | cons a rest ih =>
      rw [List.flatMap_cons, List.count_append, ih, List.count_cons, count_map_pair]
      by_cases ha : e = a
      · simp only [ha, if_pos rfl]
        simp
        ring
      · have hba : (e == a) = false := by simp [ha]
        simp only [if_neg ha]
        simp [hba]
        exact Or.inl (fun h => ha h.symm)

/-- Modelled from the spec: in every pool state reachable from the initial
state, at most `W` tasks are active, and no task is duplicated or lost. -/
theorem pool_invariant {α : Type} (W : Nat) (tasks : List α) (s : PoolState α)
    (h : Relation.ReflTransGen (PoolStep W) ⟨tasks, [], []⟩ s) :
    s.active.length ≤ W ∧ s.bag = (tasks : Multiset α) := by
  induction h with
  | refl => exact ⟨by simp, by simp [PoolState.bag]⟩
  | tail hsteps hstep ih =>
      obtain ⟨ih1, ih2⟩ := ih
      cases hstep with
      | start t rest a d hlt =>
          refine ⟨by simpa using hlt, ?_⟩
          rw [← ih2]
          simp only [PoolState.bag, Multiset.coe_eq_coe]
          refine List.Perm.append_right d ?_
          rw [List.cons_append]
          exact List.perm_middle
      | finish t p a1 a2 d =>
          refine ⟨?_, ?_⟩
          · simp [List.length_append, List.length_cons] at ih1 ⊢
            omega
          · rw [← ih2]
            simp only [PoolState.bag, Multiset.coe_eq_coe]
            rw [List.append_assoc p, List.append_assoc p]
            refine List.Perm.append_left p ?_
            rw [List.append_assoc a1 a2 (t :: d), List.append_assoc a1 (t :: a2) d,
              List.cons_append]
            exact List.Perm.append_left a1 List.perm_middle

end WfsDownloader

open WfsDownloader in
/-- C2 counterexample: over one valid CSV row the loop of
`process_csv_parallel` submits exactly one task to the pool — not
1 × 2 = 2, although two layers are configured.  The unit of parallelism is
the row (the organization), not the (organization, layer) pair: the single
task performs its two layer downloads itself, sequentially. -/
theorem C2_unit_of_parallelism_counterexample :
    (futures [⟨"Gmina Test".toList, "http://example".toList⟩]).length = 1 ∧
    LAYERS.length = 2 ∧
    (futures [⟨"Gmina Test".toList, "http://example".toList⟩]).length ≠
      1 * LAYERS.length := by
  decide

open WfsDownloader in
/-- C2 (amended): one task is submitted per valid entry — the unit of
parallelism is the organization (the row), not the (organization, layer)
pair.  Each task downloads the layers of `LAYERS` sequentially, so the
batch's download trace is exactly the cross-product entries × LAYERS; every
(entry, layer) pair is downloaded `count entry · count layer` times, i.e.
exactly once each when the entries are distinct; and every pool state
reachable under width-`W` scheduling has at most `W` tasks active while
holding exactly the submitted tasks (none duplicated, none lost). -/
theorem C2_tasks_per_row_bounded_pool (entries : List ServiceEntry)
    (fetch : PyStr → PyStr → FetchResult) (fs : FS) (W : Nat)
    (s : PoolState ServiceEntry)
    (hval : ∀ e ∈ entries, e.organ ≠ [] ∧ e.url ≠ [])
    (hreach : Relation.ReflTransGen (PoolStep W) ⟨entries, [], []⟩ s) :
    ((runBatch fetch entries fs).2).map (fun x => (x.1, x.2.1)) =
      entries.flatMap (fun e => LAYERS.map (fun l => (e, l))) ∧
    (∀ e l, (entries.flatMap (fun a => LAYERS.map (fun b => (a, b)))).count (e, l) =
      entries.count e * LAYERS.count l) ∧
    s.active.length ≤ W ∧
    s.bag = (entries : Multiset ServiceEntry) := by
  obtain ⟨h1, h2⟩ := pool_invariant W entries s hreach
  exact ⟨runBatch_trace fetch entries hval fs, fun e l => count_cross entries e l, h1, h2⟩

open WfsDownloader in
/-- Witness for C2 (amended) at a concrete input: one valid entry, pool of
width 1, initial pool state. -/
theorem C2_tasks_per_row_bounded_pool_witness :
    ((runBatch (fun _ _ => FetchResult.otherError)
        [⟨"A".toList, "u".toList⟩] ⟨[], []⟩).2).map (fun x => (x.1, x.2.1)) =
      [(⟨"A".toList, "u".toList⟩ : ServiceEntry)].flatMap
        (fun e => LAYERS.map (fun l => (e, l))) :=
  (C2_tasks_per_row_bounded_pool [⟨"A".toList, "u".toList⟩]
    (fun _ _ => FetchResult.otherError) ⟨[], []⟩ 1
    ⟨[⟨"A".toList, "u".toList⟩], [], []⟩
    (by decide) Relation.ReflTransGen.refl).1
